import Mathlib

/-!
Shallow embedding of `pidfile` (src/src/lib.rs): a PID lock-file library.

The filesystem is a map from paths (strings) to file contents; a file's
content is either valid UTF-8 text or non-UTF-8 bytes (whose exact bytes
are irrelevant: `std::fs::read_to_string` fails with `InvalidData` on
them).  The platform is an environment supplying the return value of
`libc::kill(pid, 0)` for each pid and the result of `libc::getpid()`.
Every operation is translated directly from the Rust source; stateful
operations pass the filesystem explicitly.
-/

/-- File content: either a UTF-8 text file or a file of non-UTF-8 bytes. -/
inductive FileContent where
  | text (s : String)
  | binary
deriving DecidableEq, Repr

/-- The error kinds of `std::io::ErrorKind` that this program can touch. -/
inductive ErrorKind where
  | notFound
  | invalidData
  | addrInUse
  | permissionDenied
  | other
  | uncategorized
deriving DecidableEq, Repr

/-- `std::io::Error`: a kind plus a message. -/
structure IOError where
  kind : ErrorKind
  msg : String
deriving DecidableEq, Repr

/-- The filesystem: a map from paths to optional file contents. -/
structure FS where
  files : String → Option FileContent

/-- The platform environment: `libc::kill(pid, 0)`'s return value for each
pid, and the result of `libc::getpid()`. -/
structure Env where
  kill : Int → Int
  getpid : Int

/-- `std::io::Error::from_raw_os_error(code).kind()`, for the codes this
program distinguishes (Rust maps `EPERM`/`EACCES` to `PermissionDenied`,
`ENOENT` to `NotFound`, and codes not in its table to an uncategorized
kind; no raw OS code maps to `InvalidData`). -/
def rawOsErrorKind : Int → ErrorKind
  | 1 => .permissionDenied
  | 2 => .notFound
  | 13 => .permissionDenied
  | _ => .uncategorized

/-- `std::io::Error::from_raw_os_error`. -/
def fromRawOsError (code : Int) : IOError :=
  ⟨rawOsErrorKind code, "os error"⟩

/-- `std::fs::read_to_string`: `NotFound` when no file is at the path,
`InvalidData` when the bytes are not UTF-8. -/
def readToString (fs : FS) (path : String) : Except IOError String :=
  match fs.files path with
  | none => .error ⟨.notFound, "No such file or directory"⟩
  | some .binary => .error ⟨.invalidData, "stream did not contain valid UTF-8"⟩
  | some (.text s) => .ok s

/-- `std::fs::remove_file`: fails with `NotFound` when no file is there. -/
def removeFile (fs : FS) (path : String) : Except IOError FS :=
  match fs.files path with
  | none => .error ⟨.notFound, "No such file or directory"⟩
  | some _ => .ok ⟨fun q => if q = path then none else fs.files q⟩

/-- `std::fs::remove_file` with the result discarded (`let _ = ...`). -/
def removeFileQuiet (fs : FS) (path : String) : FS :=
  match removeFile fs path with
  | .ok fs' => fs'
  | .error _ => fs

/-- `std::fs::write`: create-or-truncate write. -/
def fsWrite (fs : FS) (path : String) (content : FileContent) : FS :=
  ⟨fun q => if q = path then some content else fs.files q⟩

/-- `Path::exists`. -/
def pathExists (fs : FS) (path : String) : Bool :=
  (fs.files path).isSome

/-- `str::trim`: strip whitespace from both ends. -/
def rustTrim (s : String) : String :=
  ⟨(s.data.dropWhile Char.isWhitespace).reverse.dropWhile Char.isWhitespace |>.reverse⟩

/-- The decimal digits of `n`, most significant first (empty for 0). -/
def natDigits (n : Nat) : List Char :=
  if h : n = 0 then []
  else natDigits (n / 10) ++ [Char.ofNat (48 + n % 10)]
decreasing_by exact Nat.div_lt_self (Nat.pos_of_ne_zero h) (by decide)

/-- `format!("{}", n)` for a natural number. -/
def natRepr (n : Nat) : String :=
  if n = 0 then "0" else ⟨natDigits n⟩

/-- `format!("{}", i)` for a signed integer (as for Rust's `i32` Display). -/
def intRepr (i : Int) : String :=
  if i < 0 then "-" ++ natRepr (-i).toNat else natRepr i.toNat

/-- `str::parse::<i32>`: optional sign, one or more ASCII digits, value in
the `i32` range. -/
def parseI32 (s : String) : Option Int :=
  let l := s.data
  let signed : Bool × List Char :=
    if l.head? = some '-' then (true, l.tail)
    else if l.head? = some '+' then (false, l.tail)
    else (false, l)
  if signed.2.isEmpty then none
  else if signed.2.all Char.isDigit then
    let n : Nat := signed.2.foldl (fun acc d => acc * 10 + (d.toNat - 48)) 0
    let v : Int := if signed.1 then -(n : Int) else (n : Int)
    if -(2 ^ 31) ≤ v ∧ v < 2 ^ 31 then some v else none
  else none

/-- `pid_file_in_use` (src/src/lib.rs:44-78): read the file, parse the
trimmed content as a `pid_t`, probe the pid with `libc::kill(pid, 0)` and
interpret the probe's return value.  It performs no filesystem mutation:
its body only calls `read_to_string` and `kill`. -/
def pid_file_in_use (env : Env) (fs : FS) (path : String) : Except IOError Bool :=
  match readToString fs path with
  | .ok info =>
    match parseI32 (rustTrim info) with
    | none => .error ⟨.invalidData, "expected a PID"⟩
    | some pid =>
      let errno := env.kill pid
      if errno = 0 then .ok true
      else if errno = -1 then .ok false
      else
        let error := fromRawOsError errno
        match error.kind with
        | .notFound => .ok false
        | _ => .error error
  | .error error =>
    match error.kind with
    | .notFound => .ok false
    | _ => .error error

/-- The `PidFile` handle: holds exactly the path it owns. -/
structure PidFile where
  path : String
deriving DecidableEq, Repr

/-- The tail of `PidFile::new` (src/src/lib.rs:113-125): obtain the caller's
pid, fail on a non-positive pid, write its decimal form to the path. -/
def writeOwnPid (env : Env) (fs : FS) (path : String) :
    Except IOError PidFile × FS :=
  let pid := env.getpid
  if pid ≤ 0 then (.error ⟨.other, "negative PID"⟩, fs)
  else (.ok ⟨path⟩, fsWrite fs path (.text (intRepr pid)))

/-- `PidFile::new` (src/src/lib.rs:87-126): if the path exists, resolve the
existing marker file via `pid_file_in_use` (fail with `AddrInUse` when held,
remove stale or invalid files); then write the caller's own pid. -/
def PidFile.new (env : Env) (fs : FS) (path : String) :
    Except IOError PidFile × FS :=
  if pathExists fs path then
    match pid_file_in_use env fs path with
    | .ok true =>
      (.error ⟨.addrInUse, "PID File " ++ path ++ " is already in use"⟩, fs)
    | .ok false => writeOwnPid env (removeFileQuiet fs path) path
    | .error error =>
      if error.kind = .invalidData then
        writeOwnPid env (removeFileQuiet fs path) path
      else (.error error, fs)
  else writeOwnPid env fs path

/-- `PidFile::is_locked` (src/src/lib.rs:132-145): run `pid_file_in_use`,
turning an `InvalidData` error into `Ok(false)`.  Like `pid_file_in_use`
it performs no filesystem mutation. -/
def PidFile.is_locked (env : Env) (fs : FS) (path : String) :
    Except IOError Bool :=
  match pid_file_in_use env fs path with
  | .ok true => .ok true
  | .ok false => .ok false
  | .error error =>
    if error.kind = .invalidData then .ok false
    else .error error

/-- `Drop for PidFile` (src/src/lib.rs:148-159): remove the marker file;
on failure print a diagnostic to stderr (returned here as the optional
second component) instead of propagating anything. -/
def PidFile.drop (h : PidFile) (fs : FS) : FS × Option String :=
  match removeFile fs h.path with
  | .ok fs' => (fs', none)
  | .error error =>
    (fs, some ("Encountered an error removing the PID file at "
      ++ h.path ++ ": " ++ error.msg))

theorem natDigits_zero : natDigits 0 = [] := by
  unfold natDigits; rfl

theorem natDigits_ne (n : Nat) (h : n ≠ 0) :
    natDigits n = natDigits (n / 10) ++ [Char.ofNat (48 + n % 10)] := by
  rw [natDigits]; simp [h]

theorem digitChar_toNat (m : Nat) (h : m < 10) :
    (Char.ofNat (48 + m)).toNat = 48 + m := by
  interval_cases m <;> decide

theorem digitChar_isDigit (m : Nat) (h : m < 10) :
    (Char.ofNat (48 + m)).isDigit = true := by
  interval_cases m <;> decide

theorem natDigits_all_digit (n : Nat) : ∀ c ∈ natDigits n, c.isDigit = true := by
  induction n using Nat.strong_induction_on with
  | _ n ih =>
    intro c hc
    by_cases h : n = 0
    · subst h; rw [natDigits_zero] at hc; cases hc
    · rw [natDigits_ne n h] at hc
      rcases List.mem_append.mp hc with h1 | h1
      · exact ih (n / 10) (Nat.div_lt_self (Nat.pos_of_ne_zero h) (by decide)) c h1
      · rcases List.mem_singleton.mp h1 with rfl
        exact digitChar_isDigit _ (Nat.mod_lt _ (by decide))

theorem foldl_natDigits (n : Nat) : ∀ a : Nat,
    (natDigits n).foldl (fun acc d => acc * 10 + (d.toNat - 48)) a
      = a * 10 ^ (natDigits n).length + n := by
  induction n using Nat.strong_induction_on with
  | _ n ih =>
    intro a
    by_cases h : n = 0
    · subst h; rw [natDigits_zero]; simp
    · rw [natDigits_ne n h, List.foldl_append, List.length_append]
      simp only [List.foldl_cons, List.foldl_nil, List.length_cons, List.length_nil]
      rw [ih (n / 10) (Nat.div_lt_self (Nat.pos_of_ne_zero h) (by decide)) a]
      rw [digitChar_toNat _ (Nat.mod_lt _ (by decide))]
      have hdm := Nat.div_add_mod n 10
      have h48 : 48 + n % 10 - 48 = n % 10 := by omega
      rw [h48, pow_succ]
      ring_nf
      omega

theorem dropWhile_eq_self_of (p : Char → Bool) (l : List Char)
    (h : ∀ c ∈ l, p c = false) : l.dropWhile p = l := by
  cases l with
  | nil => rfl
  | cons c t => rw [List.dropWhile_cons, h c (List.mem_cons_self c t)]; simp

theorem rustTrim_eq_self (s : String) (h : ∀ c ∈ s.data, c.isWhitespace = false) :
    rustTrim s = s := by
  unfold rustTrim
  rw [dropWhile_eq_self_of _ _ h]
  rw [dropWhile_eq_self_of _ _ (fun c hc => h c (List.mem_reverse.mp hc))]
  rw [List.reverse_reverse]

theorem isDigit_not_ws (c : Char) (h : c.isDigit = true) : c.isWhitespace = false := by
  simp only [Char.isDigit, decide_eq_true_eq, Bool.and_eq_true] at h
  simp only [Char.isWhitespace, Bool.or_eq_true, decide_eq_true_eq, Bool.eq_false_iff]
  intro hmem
  simp only [Bool.or_eq_true, decide_eq_true_eq] at hmem
  rcases hmem with ((rfl | rfl) | rfl) | rfl <;> revert h <;> decide

theorem isDigit_ne_minus (c : Char) (h : c.isDigit = true) : c ≠ '-' := by
  rintro rfl; simp [Char.isDigit] at h

theorem isDigit_ne_plus (c : Char) (h : c.isDigit = true) : c ≠ '+' := by
  rintro rfl; simp [Char.isDigit] at h

theorem natDigits_ne_nil (n : Nat) (h : n ≠ 0) : natDigits n ≠ [] := by
  rw [natDigits_ne n h]; simp

theorem parseI32_natDigits (n : Nat) (h0 : n ≠ 0) (h31 : n < 2 ^ 31) :
    parseI32 ⟨natDigits n⟩ = some (n : Int) := by
  obtain ⟨c, t, hct⟩ := List.exists_cons_of_ne_nil (natDigits_ne_nil n h0)
  have hdig : ∀ d ∈ natDigits n, d.isDigit = true := natDigits_all_digit n
  have hcdig : c.isDigit = true := hdig c (by rw [hct]; exact List.mem_cons_self c t)
  have hne : c ≠ '-' := isDigit_ne_minus c hcdig
  have hnp : c ≠ '+' := isDigit_ne_plus c hcdig
  have hall : (c :: t).all Char.isDigit = true := by
    rw [← hct]; exact List.all_eq_true.mpr hdig
  have hfold : (c :: t).foldl (fun acc d => acc * 10 + (d.toNat - 48)) 0 = n := by
    rw [← hct]
    have hval := foldl_natDigits n 0
    simpa using hval
  simp only [parseI32, hct, List.head?_cons, List.tail_cons, Option.some.injEq,
    List.isEmpty_cons, hall, hfold, if_neg hne, if_neg hnp]
  simp only [Bool.false_eq_true, if_false, if_true]
  rw [if_pos ⟨by omega, by omega⟩]

theorem rustTrim_natDigits (n : Nat) : rustTrim ⟨natDigits n⟩ = ⟨natDigits n⟩ :=
  rustTrim_eq_self _ (fun c hc => isDigit_not_ws c (natDigits_all_digit n c hc))

theorem intRepr_pos (i : Int) (h : 0 < i) : intRepr i = ⟨natDigits i.toNat⟩ := by
  unfold intRepr natRepr
  rw [if_neg (by omega), if_neg (by omega)]

theorem parse_roundtrip (i : Int) (h0 : 0 < i) (h31 : i < 2 ^ 31) :
    parseI32 (rustTrim (intRepr i)) = some i := by
  rw [intRepr_pos i h0, rustTrim_natDigits]
  rw [parseI32_natDigits i.toNat (by omega) (by omega)]
  congr 1
  omega

theorem pid_file_in_use_absent (env : Env) (fs : FS) (p : String)
    (hfile : fs.files p = none) :
    pid_file_in_use env fs p = .ok false := by
  unfold pid_file_in_use readToString
  rw [hfile]

theorem pid_file_in_use_binary (env : Env) (fs : FS) (p : String)
    (hfile : fs.files p = some .binary) :
    pid_file_in_use env fs p =
      .error ⟨.invalidData, "stream did not contain valid UTF-8"⟩ := by
  unfold pid_file_in_use readToString
  rw [hfile]

theorem pid_file_in_use_malformed (env : Env) (fs : FS) (p : String) (s : String)
    (hfile : fs.files p = some (.text s))
    (hparse : parseI32 (rustTrim s) = none) :
    pid_file_in_use env fs p = .error ⟨.invalidData, "expected a PID"⟩ := by
  unfold pid_file_in_use readToString
  rw [hfile]
  simp only [hparse]

theorem pid_file_in_use_held (env : Env) (fs : FS) (p : String) (s : String) (q : Int)
    (hfile : fs.files p = some (.text s))
    (hparse : parseI32 (rustTrim s) = some q)
    (hkill : env.kill q = 0) :
    pid_file_in_use env fs p = .ok true := by
  unfold pid_file_in_use readToString
  rw [hfile]
  simp [hparse, hkill]

theorem pid_file_in_use_dead (env : Env) (fs : FS) (p : String) (s : String) (q : Int)
    (hfile : fs.files p = some (.text s))
    (hparse : parseI32 (rustTrim s) = some q)
    (hkill : env.kill q = -1) :
    pid_file_in_use env fs p = .ok false := by
  unfold pid_file_in_use readToString
  rw [hfile]
  simp [hparse, hkill]

theorem pid_file_in_use_oserr (env : Env) (fs : FS) (p : String) (s : String) (q e : Int)
    (hfile : fs.files p = some (.text s))
    (hparse : parseI32 (rustTrim s) = some q)
    (hkill : env.kill q = e)
    (h0 : e ≠ 0) (h1 : e ≠ -1) (hnf : rawOsErrorKind e ≠ .notFound) :
    pid_file_in_use env fs p = .error (fromRawOsError e) := by
  unfold pid_file_in_use readToString
  rw [hfile]
  simp only [hparse, hkill, if_neg h0, if_neg h1]
  unfold fromRawOsError
  rcases hk : rawOsErrorKind e with h | h | h | h | h | h <;> simp_all

theorem is_locked_of_ok (env : Env) (fs : FS) (p : String) (b : Bool)
    (h : pid_file_in_use env fs p = .ok b) :
    PidFile.is_locked env fs p = .ok b := by
  unfold PidFile.is_locked
  rw [h]
  cases b <;> rfl

theorem is_locked_of_invalid (env : Env) (fs : FS) (p : String) (m : String)
    (h : pid_file_in_use env fs p = .error ⟨.invalidData, m⟩) :
    PidFile.is_locked env fs p = .ok false := by
  unfold PidFile.is_locked
  rw [h]
  simp

theorem is_locked_of_err (env : Env) (fs : FS) (p : String) (er : IOError)
    (h : pid_file_in_use env fs p = .error er) (hk : er.kind ≠ .invalidData) :
    PidFile.is_locked env fs p = .error er := by
  unfold PidFile.is_locked
  rw [h]
  simp [hk]

theorem writeOwnPid_pos (env : Env) (fs : FS) (p : String) (h : 0 < env.getpid) :
    writeOwnPid env fs p = (.ok ⟨p⟩, fsWrite fs p (.text (intRepr env.getpid))) := by
  unfold writeOwnPid
  rw [if_neg (by omega)]

theorem writeOwnPid_nonpos (env : Env) (fs : FS) (p : String) (h : env.getpid ≤ 0) :
    writeOwnPid env fs p = (.error ⟨.other, "negative PID"⟩, fs) := by
  unfold writeOwnPid
  rw [if_pos h]

theorem new_fresh (env : Env) (fs : FS) (p : String) (hfile : fs.files p = none) :
    PidFile.new env fs p = writeOwnPid env fs p := by
  unfold PidFile.new pathExists
  rw [hfile]
  rfl

theorem new_held (env : Env) (fs : FS) (p : String) (s : String) (q : Int)
    (hfile : fs.files p = some (.text s))
    (hparse : parseI32 (rustTrim s) = some q)
    (hkill : env.kill q = 0) :
    PidFile.new env fs p =
      (.error ⟨.addrInUse, "PID File " ++ p ++ " is already in use"⟩, fs) := by
  unfold PidFile.new pathExists
  rw [hfile]
  simp only [Option.isSome_some, if_true]
  rw [pid_file_in_use_held env fs p s q hfile hparse hkill]

theorem new_of_not_in_use (env : Env) (fs : FS) (p : String)
    (hsome : (fs.files p).isSome = true)
    (h : pid_file_in_use env fs p = .ok false) :
    PidFile.new env fs p = writeOwnPid env (removeFileQuiet fs p) p := by
  unfold PidFile.new pathExists
  rw [hsome, if_pos rfl, h]

theorem new_of_invalid (env : Env) (fs : FS) (p : String) (m : String)
    (hsome : (fs.files p).isSome = true)
    (h : pid_file_in_use env fs p = .error ⟨.invalidData, m⟩) :
    PidFile.new env fs p = writeOwnPid env (removeFileQuiet fs p) p := by
  unfold PidFile.new pathExists
  rw [hsome, if_pos rfl, h]
  rfl

theorem new_of_err (env : Env) (fs : FS) (p : String) (er : IOError)
    (hsome : (fs.files p).isSome = true)
    (h : pid_file_in_use env fs p = .error er) (hk : er.kind ≠ .invalidData) :
    PidFile.new env fs p = (.error er, fs) := by
  unfold PidFile.new pathExists
  rw [hsome, if_pos rfl, h]
  simp [hk]

theorem fsWrite_files_self (fs : FS) (p : String) (c : FileContent) :
    (fsWrite fs p c).files p = some c := by
  simp [fsWrite]

theorem removeFileQuiet_files_self (fs : FS) (p : String) :
    (removeFileQuiet fs p).files p = none := by
  unfold removeFileQuiet removeFile
  cases h : fs.files p with
  | none => simpa using h
  | some c => simp

theorem drop_present (h : PidFile) (fs : FS) (hfile : (fs.files h.path).isSome = true) :
    (PidFile.drop h fs).2 = none ∧ (PidFile.drop h fs).1.files h.path = none := by
  unfold PidFile.drop removeFile
  rcases hc : fs.files h.path with _ | c
  · rw [hc] at hfile; cases hfile
  · simp

theorem drop_absent (h : PidFile) (fs : FS) (hfile : fs.files h.path = none) :
    PidFile.drop h fs =
      (fs, some ("Encountered an error removing the PID file at "
        ++ h.path ++ ": " ++ "No such file or directory")) := by
  unfold PidFile.drop removeFile
  rw [hfile]

theorem pid_file_in_use_os_notfound (env : Env) (fs : FS) (p : String) (s : String) (q e : Int)
    (hfile : fs.files p = some (.text s))
    (hparse : parseI32 (rustTrim s) = some q)
    (hkill : env.kill q = e)
    (h0 : e ≠ 0) (h1 : e ≠ -1) (hnf : rawOsErrorKind e = .notFound) :
    pid_file_in_use env fs p = .ok false := by
  unfold pid_file_in_use readToString
  rw [hfile]
  simp only [hparse, hkill, if_neg h0, if_neg h1]
  unfold fromRawOsError
  simp only [hnf]

theorem rawOsErrorKind_ne_invalidData (e : Int) : rawOsErrorKind e ≠ .invalidData := by
  unfold rawOsErrorKind
  split <;> simp

theorem new_cases (env : Env) (fs : FS) (p : String) :
    PidFile.new env fs p = writeOwnPid env fs p ∨
    PidFile.new env fs p = writeOwnPid env (removeFileQuiet fs p) p ∨
    ∃ er, PidFile.new env fs p = (.error er, fs) := by
  unfold PidFile.new
  split
  · split
    · exact Or.inr (Or.inr ⟨_, rfl⟩)
    · exact Or.inr (Or.inl rfl)
    · split
      · exact Or.inr (Or.inl rfl)
      · exact Or.inr (Or.inr ⟨_, rfl⟩)
  · exact Or.inl rfl

theorem writeOwnPid_fst_ok (env : Env) (fs : FS) (p : String) (h : PidFile)
    (hok : (writeOwnPid env fs p).1 = .ok h) :
    0 < env.getpid ∧ h = ⟨p⟩ ∧
    (writeOwnPid env fs p).2 = fsWrite fs p (.text (intRepr env.getpid)) := by
  by_cases hp : env.getpid ≤ 0
  · rw [writeOwnPid_nonpos env fs p hp] at hok
    simp at hok
  · have hp' : 0 < env.getpid := by omega
    rw [writeOwnPid_pos env fs p hp'] at hok ⊢
    simp only at hok
    exact ⟨hp', (Except.ok.inj hok).symm, rfl⟩

/-- Claim C1: round-trip of the lock lifecycle.  For every fresh path (no
file present), with a well-formed own pid (positive, in `i32` range) that the
probe reports alive, `PidFile.new` succeeds, a subsequent
`PidFile.is_locked` reports `true`, and after the handle is dropped
`PidFile.is_locked` reports `false` and no file exists at the path. -/
theorem c1_lock_lifecycle_roundtrip (env : Env) (fs : FS) (p : String)
    (hfresh : fs.files p = none)
    (hpid : 0 < env.getpid) (hpid31 : env.getpid < 2 ^ 31)
    (halive : env.kill env.getpid = 0) :
    ∃ h fs1,
      PidFile.new env fs p = (.ok h, fs1) ∧
      PidFile.is_locked env fs1 p = .ok true ∧
      (PidFile.drop h fs1).1.files p = none ∧
      PidFile.is_locked env (PidFile.drop h fs1).1 p = .ok false := by
  have hw : ((fsWrite fs p (.text (intRepr env.getpid))).files p).isSome = true := by
    rw [fsWrite_files_self]
    rfl
  have hdrop := drop_present ⟨p⟩ (fsWrite fs p (.text (intRepr env.getpid))) hw
  refine ⟨⟨p⟩, fsWrite fs p (.text (intRepr env.getpid)), ?_, ?_, hdrop.2, ?_⟩
  · rw [new_fresh env fs p hfresh, writeOwnPid_pos env fs p hpid]
  · exact is_locked_of_ok _ _ _ _ (pid_file_in_use_held _ _ _ _ env.getpid
      (fsWrite_files_self _ _ _) (parse_roundtrip _ hpid hpid31) halive)
  · exact is_locked_of_ok _ _ _ _ (pid_file_in_use_absent _ _ _ hdrop.2)

theorem c1_witness :
    ∃ h fs1,
      PidFile.new ⟨fun _ => 0, 42⟩ ⟨fun _ => none⟩ "p" = (.ok h, fs1) ∧
      PidFile.is_locked ⟨fun _ => 0, 42⟩ fs1 "p" = .ok true ∧
      (PidFile.drop h fs1).1.files "p" = none ∧
      PidFile.is_locked ⟨fun _ => 0, 42⟩ (PidFile.drop h fs1).1 "p" = .ok false :=
  c1_lock_lifecycle_roundtrip ⟨fun _ => 0, 42⟩ ⟨fun _ => none⟩ "p" rfl
    (by decide) (by decide) rfl

/-- Claim C2: contention.  If the marker file at the path contains an
identifier that the liveness probe reports alive, `PidFile.new` fails with
an `AddrInUse` error whose message carries the path, and the filesystem is
returned unchanged (the file and its content are untouched). -/
theorem c2_contention (env : Env) (fs : FS) (p s : String) (q : Int)
    (hfile : fs.files p = some (.text s))
    (hparse : parseI32 (rustTrim s) = some q)
    (halive : env.kill q = 0) :
    PidFile.new env fs p =
      (.error ⟨.addrInUse, "PID File " ++ p ++ " is already in use"⟩, fs) := by
  unfold PidFile.new pathExists
  rw [hfile]
  simp only [Option.isSome_some, if_true]
  rw [pid_file_in_use_held env fs p s q hfile hparse halive]

theorem c2_witness :
    PidFile.new ⟨fun _ => 0, 7⟩
        ⟨fun q => if q = "p" then some (.text "42") else none⟩ "p" =
      (.error ⟨.addrInUse, "PID File " ++ "p" ++ " is already in use"⟩,
        ⟨fun q => if q = "p" then some (.text "42") else none⟩) :=
  c2_contention ⟨fun _ => 0, 7⟩ _ "p" "42" 42 rfl (by decide) rfl

/-- Claim C3 (code bug, concrete evaluation): with a marker file at "p"
containing "12345" and a probe reporting the pid dead (`kill` returns -1),
`PidFile.is_locked` returns `Ok false` but does NOT delete the marker file:
`pid_file_in_use` contains no `remove_file` call at all (reflected here by
its type, which takes the filesystem and returns no updated one), even
though its own doc comment says the file "will be removed by this
function".  Only a subsequent `PidFile.new` removes the stale file and
succeeds. -/
theorem c3_stale_file_survives_query :
    PidFile.is_locked ⟨fun _ => -1, 42⟩
        ⟨fun q => if q = "p" then some (.text "12345") else none⟩ "p" = .ok false ∧
    (FS.mk (fun q => if q = "p" then some (.text "12345") else none)).files "p"
      = some (.text "12345") ∧
    (PidFile.new ⟨fun _ => -1, 42⟩
        ⟨fun q => if q = "p" then some (.text "12345") else none⟩ "p").1
      = .ok ⟨"p"⟩ := by
  have hdead := pid_file_in_use_dead ⟨fun _ => -1, 42⟩
    ⟨fun q => if q = "p" then some (.text "12345") else none⟩ "p" "12345" 12345
    rfl (by decide) rfl
  refine ⟨is_locked_of_ok _ _ _ _ hdead, rfl, ?_⟩
  rw [new_of_not_in_use ⟨fun _ => -1, 42⟩
    ⟨fun q => if q = "p" then some (.text "12345") else none⟩ "p" (by decide) hdead]
  rw [writeOwnPid_pos _ _ _ (by decide)]

/-- Claim C4: probe-error propagation.  When the liveness probe returns a
value other than 0 (alive) and other than -1 (the failure return folded
into Dead), and the raw OS error kind is not `NotFound`, inspection
propagates the error: `pid_file_in_use`, `PidFile.is_locked` and
`PidFile.new` all surface it, and `new` leaves the filesystem unchanged. -/
theorem c4_probe_error_propagation (env : Env) (fs : FS) (p s : String) (q e : Int)
    (hfile : fs.files p = some (.text s))
    (hparse : parseI32 (rustTrim s) = some q)
    (hkill : env.kill q = e)
    (h0 : e ≠ 0) (h1 : e ≠ -1)
    (hnf : rawOsErrorKind e ≠ .notFound) :
    pid_file_in_use env fs p = .error (fromRawOsError e) ∧
    PidFile.is_locked env fs p = .error (fromRawOsError e) ∧
    PidFile.new env fs p = (.error (fromRawOsError e), fs) := by
  have hin := pid_file_in_use_oserr env fs p s q e hfile hparse hkill h0 h1 hnf
  have hkind : (fromRawOsError e).kind ≠ .invalidData :=
    rawOsErrorKind_ne_invalidData e
  exact ⟨hin, is_locked_of_err env fs p _ hin hkind,
    new_of_err env fs p _ (by rw [hfile]; rfl) hin hkind⟩

theorem c4_witness :
    pid_file_in_use ⟨fun _ => 5, 1⟩
        ⟨fun q => if q = "p" then some (.text "9") else none⟩ "p"
      = .error (fromRawOsError 5) ∧
    PidFile.is_locked ⟨fun _ => 5, 1⟩
        ⟨fun q => if q = "p" then some (.text "9") else none⟩ "p"
      = .error (fromRawOsError 5) ∧
    PidFile.new ⟨fun _ => 5, 1⟩
        ⟨fun q => if q = "p" then some (.text "9") else none⟩ "p"
      = (.error (fromRawOsError 5),
        ⟨fun q => if q = "p" then some (.text "9") else none⟩) :=
  c4_probe_error_propagation ⟨fun _ => 5, 1⟩ _ "p" "9" 9 5 rfl (by decide) rfl
    (by decide) (by decide) (by decide)

/-- Claim C5 counterexample: a marker file containing "-1" — which the
claim says is not a positive integer and hence Malformed — actually parses
as the `i32` value -1 (`parse::<pid_t>` accepts a sign), is passed to the
liveness probe, and with a probe returning 0 is classified Held
(`Ok true`), not Malformed. -/
theorem c5_nonpositive_probed_counterexample :
    parseI32 (rustTrim "-1") = some (-1) ∧
    pid_file_in_use ⟨fun _ => 0, 42⟩
        ⟨fun q => if q = "p" then some (.text "-1") else none⟩ "p" = .ok true := by
  refine ⟨by decide, ?_⟩
  exact pid_file_in_use_held ⟨fun _ => 0, 42⟩ _ "p" "-1" (-1) rfl (by decide) rfl

/-- Claim C5 as amended: a marker file is classified Malformed (the
`InvalidData` "expected a PID" error) exactly when its trimmed content
fails to parse as an `i32`; content that parses to any `i32` — including
non-positive values such as "-1" or "0" — is never Malformed and instead
goes to the liveness probe, which may classify it Held or Stale. -/
theorem c5_malformed_iff_parse_failure (env : Env) (fs : FS) (p s : String)
    (hfile : fs.files p = some (.text s)) :
    (pid_file_in_use env fs p = .error ⟨.invalidData, "expected a PID"⟩)
      ↔ parseI32 (rustTrim s) = none := by
  constructor
  · intro h
    cases hp : parseI32 (rustTrim s) with
    | none => rfl
    | some q =>
      exfalso
      by_cases h0 : env.kill q = 0
      · rw [pid_file_in_use_held env fs p s q hfile hp h0] at h
        cases h
      · by_cases h1 : env.kill q = -1
        · rw [pid_file_in_use_dead env fs p s q hfile hp h1] at h
          cases h
        · by_cases hnf : rawOsErrorKind (env.kill q) = .notFound
          · rw [pid_file_in_use_os_notfound env fs p s q (env.kill q)
              hfile hp rfl h0 h1 hnf] at h
            cases h
          · rw [pid_file_in_use_oserr env fs p s q (env.kill q)
              hfile hp rfl h0 h1 hnf] at h
            have := rawOsErrorKind_ne_invalidData (env.kill q)
            unfold fromRawOsError at h
            rw [Except.error.injEq, IOError.mk.injEq] at h
            exact this h.1
  · intro h
    exact pid_file_in_use_malformed env fs p s hfile h

theorem c5_witness :
    (pid_file_in_use ⟨fun _ => 0, 1⟩
        ⟨fun q => if q = "p" then some (.text "abc") else none⟩ "p"
      = .error ⟨.invalidData, "expected a PID"⟩)
      ↔ parseI32 (rustTrim "abc") = none :=
  c5_malformed_iff_parse_failure ⟨fun _ => 0, 1⟩ _ "p" "abc" rfl

/-- Claim C6: malformed asymmetry.  For a marker file whose text content
does not parse as a pid, `PidFile.is_locked` returns `Ok false` with no
error (and, since `pid_file_in_use` performs no filesystem mutation, the
file still exists right after the query), while a subsequent
`PidFile.new` succeeds, deleting and overwriting the malformed content
with the caller's pid, never surfacing the data-validity error. -/
theorem c6_malformed_asymmetry (env : Env) (fs : FS) (p s : String)
    (hfile : fs.files p = some (.text s))
    (hparse : parseI32 (rustTrim s) = none)
    (hpid : 0 < env.getpid) :
    PidFile.is_locked env fs p = .ok false ∧
    (PidFile.new env fs p).1 = .ok ⟨p⟩ ∧
    ((PidFile.new env fs p).2).files p = some (.text (intRepr env.getpid)) := by
  have hin := pid_file_in_use_malformed env fs p s hfile hparse
  have hnew := new_of_invalid env fs p _ (by rw [hfile]; rfl) hin
  rw [hnew, writeOwnPid_pos _ _ _ hpid]
  exact ⟨is_locked_of_invalid env fs p _ hin, rfl, fsWrite_files_self _ _ _⟩

theorem c6_witness :
    PidFile.is_locked ⟨fun _ => 0, 42⟩
        ⟨fun q => if q = "p" then some (.text "not a pid") else none⟩ "p"
      = .ok false ∧
    (PidFile.new ⟨fun _ => 0, 42⟩
        ⟨fun q => if q = "p" then some (.text "not a pid") else none⟩ "p").1
      = .ok ⟨"p"⟩ ∧
    ((PidFile.new ⟨fun _ => 0, 42⟩
        ⟨fun q => if q = "p" then some (.text "not a pid") else none⟩ "p").2).files "p"
      = some (.text (intRepr 42)) :=
  c6_malformed_asymmetry ⟨fun _ => 0, 42⟩ _ "p" "not a pid" rfl (by decide) (by decide)

/-- Claim C7: written form.  On every successful acquisition (any
filesystem, any environment with an `i32`-ranged pid), the returned handle
holds the path, and the file at the path contains exactly the decimal
string of the caller's own pid; that string is free of surrounding
whitespace (it is a fixpoint of `trim`) and read-trim-parse recovers the
same identifier. -/
theorem c7_written_form (env : Env) (fs : FS) (p : String) (h : PidFile)
    (hpid31 : env.getpid < 2 ^ 31)
    (hok : (PidFile.new env fs p).1 = .ok h) :
    h = ⟨p⟩ ∧
    ((PidFile.new env fs p).2).files p = some (.text (intRepr env.getpid)) ∧
    rustTrim (intRepr env.getpid) = intRepr env.getpid ∧
    parseI32 (rustTrim (intRepr env.getpid)) = some env.getpid := by
  rcases new_cases env fs p with hc | hc | ⟨er, hc⟩
  · rw [hc] at hok ⊢
    obtain ⟨hp, rfl, h2⟩ := writeOwnPid_fst_ok env fs p h hok
    refine ⟨rfl, ?_, ?_, parse_roundtrip _ hp hpid31⟩
    · rw [h2]
      exact fsWrite_files_self _ _ _
    · rw [intRepr_pos _ hp]
      exact rustTrim_natDigits _
  · rw [hc] at hok ⊢
    obtain ⟨hp, rfl, h2⟩ := writeOwnPid_fst_ok env _ p h hok
    refine ⟨rfl, ?_, ?_, parse_roundtrip _ hp hpid31⟩
    · rw [h2]
      exact fsWrite_files_self _ _ _
    · rw [intRepr_pos _ hp]
      exact rustTrim_natDigits _
  · rw [hc] at hok
    cases hok

theorem c7_witness :
    (⟨"p"⟩ : PidFile) = ⟨"p"⟩ ∧
    ((PidFile.new ⟨fun _ => 0, 42⟩ ⟨fun _ => none⟩ "p").2).files "p"
      = some (.text (intRepr 42)) ∧
    rustTrim (intRepr 42) = intRepr 42 ∧
    parseI32 (rustTrim (intRepr 42)) = some 42 :=
  c7_written_form ⟨fun _ => 0, 42⟩ ⟨fun _ => none⟩ "p" ⟨"p"⟩ (by decide) rfl

/-- Claim C8: invalid own identifier.  If `getpid` reports a non-positive
identifier, acquisition on a fresh path fails with the non-contention
"negative PID" error (`Other` kind) and no marker file is written. -/
theorem c8_invalid_own_pid (env : Env) (fs : FS) (p : String)
    (hfresh : fs.files p = none) (hpid : env.getpid ≤ 0) :
    PidFile.new env fs p = (.error ⟨.other, "negative PID"⟩, fs) ∧
    ((PidFile.new env fs p).2).files p = none := by
  have h1 : PidFile.new env fs p = (.error ⟨.other, "negative PID"⟩, fs) := by
    rw [new_fresh env fs p hfresh, writeOwnPid_nonpos env fs p hpid]
  refine ⟨h1, ?_⟩
  rw [h1]
  exact hfresh

theorem c8_witness :
    PidFile.new ⟨fun _ => 0, -3⟩ ⟨fun _ => none⟩ "p"
      = (.error ⟨.other, "negative PID"⟩, ⟨fun _ => none⟩) ∧
    ((PidFile.new ⟨fun _ => 0, -3⟩ ⟨fun _ => none⟩ "p").2).files "p" = none :=
  c8_invalid_own_pid ⟨fun _ => 0, -3⟩ ⟨fun _ => none⟩ "p" rfl (by decide)

/-- Claim C9: release safety.  Dropping a handle is a total function for
every handle and filesystem: when the marker file was already externally
deleted, the drop returns normally with the filesystem unchanged and the
deletion failure reported only as a diagnostic message; when the file is
present, it is removed with no diagnostic.  No error is propagated in
either outcome. -/
theorem c9_release_safety (h : PidFile) (fs : FS) :
    (fs.files h.path = none →
      PidFile.drop h fs =
        (fs, some ("Encountered an error removing the PID file at "
          ++ h.path ++ ": " ++ "No such file or directory"))) ∧
    (∀ c, fs.files h.path = some c →
      (PidFile.drop h fs).2 = none ∧ (PidFile.drop h fs).1.files h.path = none) := by
  constructor
  · intro hfile
    exact drop_absent h fs hfile
  · intro c hc
    exact drop_present h fs (by rw [hc]; rfl)

theorem c9_witness :
    PidFile.drop ⟨"p"⟩ ⟨fun _ => none⟩ =
      (⟨fun _ => none⟩, some ("Encountered an error removing the PID file at "
        ++ "p" ++ ": " ++ "No such file or directory")) :=
  (c9_release_safety ⟨"p"⟩ ⟨fun _ => none⟩).1 rfl

/-- Claim C10: non-UTF-8 marker files.  A file of non-UTF-8 bytes makes
`read_to_string` fail with `InvalidData`, which is handled exactly like
unparsable text: `PidFile.is_locked` returns `Ok false` without error, and
`PidFile.new` reclaims the file and acquires the lock, writing the
caller's pid; neither operation propagates the read failure. -/
theorem c10_non_utf8_reclaim (env : Env) (fs : FS) (p : String)
    (hfile : fs.files p = some .binary)
    (hpid : 0 < env.getpid) :
    pid_file_in_use env fs p =
      .error ⟨.invalidData, "stream did not contain valid UTF-8"⟩ ∧
    PidFile.is_locked env fs p = .ok false ∧
    (PidFile.new env fs p).1 = .ok ⟨p⟩ ∧
    ((PidFile.new env fs p).2).files p = some (.text (intRepr env.getpid)) := by
  have hin := pid_file_in_use_binary env fs p hfile
  have hnew := new_of_invalid env fs p _ (by rw [hfile]; rfl) hin
  rw [hnew, writeOwnPid_pos _ _ _ hpid]
  exact ⟨hin, is_locked_of_invalid env fs p _ hin, rfl, fsWrite_files_self _ _ _⟩

theorem c10_witness :
    pid_file_in_use ⟨fun _ => 0, 42⟩
        ⟨fun q => if q = "p" then some .binary else none⟩ "p"
      = .error ⟨.invalidData, "stream did not contain valid UTF-8"⟩ ∧
    PidFile.is_locked ⟨fun _ => 0, 42⟩
        ⟨fun q => if q = "p" then some .binary else none⟩ "p" = .ok false ∧
    (PidFile.new ⟨fun _ => 0, 42⟩
        ⟨fun q => if q = "p" then some .binary else none⟩ "p").1 = .ok ⟨"p"⟩ ∧
    ((PidFile.new ⟨fun _ => 0, 42⟩
        ⟨fun q => if q = "p" then some .binary else none⟩ "p").2).files "p"
      = some (.text (intRepr 42)) :=
  c10_non_utf8_reclaim ⟨fun _ => 0, 42⟩ _ "p" rfl (by decide)
